import Mathlib

/-!
Verification of the btclib elliptic-curve / ECDSA core.

Shallow embedding of `src/btclib/curve.py` and `src/btclib/ecdsa.py`.
Python arbitrary-precision integers are modelled as `ℤ`; the Python `%`
operator (sign follows the divisor) is `Int.fmod`; exceptions are modelled
with `Except String`.  Components of the repository that are imported by
`ecdsa.py` but whose source files are not part of the repository snapshot
(`alias.py`, `numbertheory.py`, `ellipticcurves.py`, `rfc6979.py`,
`ecsignutils.py`) are modelled from the specification and carry a
`Modelled from the spec:` doc comment.
-/

deriving instance DecidableEq for Except

namespace Btclib

/-- Affine point, as in `alias.Point`: a pair of integers; a pair whose
second component is `0` is the infinity sentinel. -/
abbrev Point := ℤ × ℤ

/-- Jacobian point, as in `alias.JacPoint`: a triple of integers; a triple
whose third component is `0` is the infinity sentinel. -/
abbrev JacPoint := ℤ × ℤ × ℤ

/-- Modelled from the spec: the affine infinity sentinel `INF` of the absent
`alias` module.  Per the data model, any affine pair whose y-component is `0`
denotes infinity; the concrete x-component of the constant is immaterial to
every algorithm (the code always tests infinity via the y-component). -/
def INF : Point := (7, 0)

/-- Modelled from the spec: the Jacobian infinity sentinel `INFJ` of the
absent `alias` module; the `Z = 0` component is what marks infinity. -/
def INFJ : JacPoint := (7, 0, 0)

/-- Extended Euclidean algorithm, structurally recursive on a fuel argument
bounding the iteration count: `egcdLoop fuel a b = (g, x, y)` with
`g = x * a + y * b` and `g` a greatest common divisor (up to sign). -/
def egcdLoop : ℕ → ℤ → ℤ → ℤ × ℤ × ℤ
  | 0, a, _ => (a, 1, 0)
  | fuel+1, a, b =>
    if b = 0 then (a, 1, 0)
    else
      let q := Int.ediv a b
      let r := Int.emod a b
      match egcdLoop fuel b r with
      | (g, x, y) => (g, y, x - q * y)

/-- Modelled from the spec: `numbertheory.mod_inv(a, m)` of the absent
`numbertheory` module returns the modular inverse of `a` modulo `m`, or
fails if `gcd(a, m) ≠ 1`.  The inverse comes from the extended Euclidean
algorithm, reduced into range by the Python `%`; the second argument of
`egcdLoop` strictly decreases in absolute value each step, so
`m.natAbs + 2` fuel always suffices. -/
def mod_inv (a m : ℤ) : Except String ℤ :=
  match egcdLoop (m.natAbs + 2) a m with
  | (g, x, _) =>
    if g = 1 ∨ g = -1 then .ok ((x * g).fmod m)
    else .error "inverse does not exist"

/-- Square-and-multiply loop for modular exponentiation, structurally
recursive on a fuel argument that bounds the number of iterations. -/
def powModLoop : ℕ → ℤ → ℤ → ℤ → ℤ → ℤ
  | 0, _, _, _, acc => acc
  | fuel+1, b, e, m, acc =>
    if e ≤ 0 then acc
    else powModLoop fuel ((b * b).fmod m) (e / 2) m
      (if e.fmod 2 = 1 then (acc * b).fmod m else acc)

/-- Modular exponentiation `b ^ e mod m` for `e ≥ 0` (Python `pow(b, e, m)`). -/
def powMod (b e m : ℤ) : ℤ :=
  powModLoop (e.toNat + 1) (b.fmod m) e m (Int.fmod 1 m)

/-- Modelled from the spec: `numbertheory.mod_sqrt(a, p)` of the absent
`numbertheory` module returns a square root of `a` modulo `p`, or fails if
`a` is a non-residue.  For `p ≡ 3 (mod 4)` the root is the classical
`a ^ ((p+1)/4) mod p` candidate, checked by squaring; otherwise a root is
searched for directly.  Which of the two roots is returned is irrelevant to
the callers, which re-disambiguate by parity. -/
def mod_sqrt (a p : ℤ) : Except String ℤ :=
  let a' := a.fmod p
  if p.fmod 4 = 3 then
    let r := powMod a' ((p + 1) / 4) p
    if (r * r).fmod p = a' then .ok r else .error "no root exists"
  else
    match (List.range p.toNat).find? (fun y => ((y : ℤ) * (y : ℤ)).fmod p = a') with
    | some y => .ok (y : ℤ)
    | none => .error "no root exists"

/-- Curve domain parameters, as stored by `curve.Curve.__init__` after
validation (`_p`, `_a`, `_b`, `G`, `n`, `h`, `sec_bits`). -/
structure Curve where
  p : ℤ
  a : ℤ
  b : ℤ
  G : Point
  n : ℤ
  h : ℤ
  sec_bits : ℤ

/-- Embeds `curve._jac_from_aff`: `(Q[0], Q[1], 1 if Q[1] else 0)`. -/
def _jac_from_aff (Q : Point) : JacPoint :=
  (Q.1, Q.2, if Q.2 ≠ 0 then 1 else 0)

/-- Embeds `Curve._y2`: `((x*x + a)*x + b) % p`. -/
def Curve._y2 (ec : Curve) (x : ℤ) : ℤ :=
  ((x * x + ec.a) * x + ec.b).fmod ec.p

/-- Embeds `Curve.is_on_curve`: a pair with `y = 0` is the infinity sentinel and is
on the curve; otherwise `y` must lie in `(0, p)` (else a `ValueError` is
raised) and the curve equation is evaluated. -/
def Curve.is_on_curve (ec : Curve) (Q : Point) : Except String Bool :=
  if Q.2 = 0 then .ok true
  else if ¬(0 < Q.2 ∧ Q.2 < ec.p) then .error "y-coordinate not in (0, p)"
  else .ok (decide (ec._y2 Q.1 = (Q.2 * Q.2).fmod ec.p))

/-- Embeds `Curve.require_on_curve`: raise `ValueError` unless the point is on the
curve. -/
def Curve.require_on_curve (ec : Curve) (Q : Point) : Except String Unit := do
  let b ← ec.is_on_curve Q
  if b then pure () else .error "Point not on curve"

/-- Embeds `Curve._add_aff`: affine addition; either operand with `y = 0` is the
infinity sentinel and the other operand is returned; equal abscissas split
into doubling (equal ordinates) and infinity (opposite ordinates). -/
def Curve._add_aff (ec : Curve) (Q R : Point) : Except String Point :=
  if R.2 = 0 then .ok Q
  else if Q.2 = 0 then .ok R
  else if R.1 = Q.1 then
    if R.2 = Q.2 then do
      let i ← mod_inv (2 * Q.2) ec.p
      let lam := ((3 * Q.1 * Q.1 + ec.a) * i).fmod ec.p
      let x := (lam * lam - Q.1 - R.1).fmod ec.p
      let y := (lam * (Q.1 - x) - Q.2).fmod ec.p
      .ok (x, y)
    else .ok INF
  else do
    let i ← mod_inv (R.1 - Q.1) ec.p
    let lam := ((R.2 - Q.2) * i).fmod ec.p
    let x := (lam * lam - Q.1 - R.1).fmod ec.p
    let y := (lam * (Q.1 - x) - Q.2).fmod ec.p
    .ok (x, y)

/-- Embeds `Curve.add`: validate both operands, then add in affine coordinates. -/
def Curve.add (ec : Curve) (Q1 Q2 : Point) : Except String Point := do
  ec.require_on_curve Q1
  ec.require_on_curve Q2
  ec._add_aff Q1 Q2

/-- Embeds `Curve._add_jac`: Jacobian addition; a pure computation (no modular
inversion is performed). -/
def Curve._add_jac (ec : Curve) (Q R : JacPoint) : JacPoint :=
  if Q.2.2 = 0 then R
  else if R.2.2 = 0 then Q
  else
    let RZ2 := R.2.2 * R.2.2
    let RZ3 := RZ2 * R.2.2
    let QZ2 := Q.2.2 * Q.2.2
    let QZ3 := QZ2 * Q.2.2
    if (Q.1 * RZ2).fmod ec.p = (R.1 * QZ2).fmod ec.p then
      if (Q.2.1 * RZ3).fmod ec.p = (R.2.1 * QZ3).fmod ec.p then
        let QY2 := Q.2.1 * Q.2.1
        let W := (3 * Q.1 * Q.1 + ec.a * QZ2 * QZ2).fmod ec.p
        let V := (4 * Q.1 * QY2).fmod ec.p
        let X := (W * W - 2 * V).fmod ec.p
        let Y := (W * (V - X) - 8 * QY2 * QY2).fmod ec.p
        let Z := (2 * Q.2.1 * Q.2.2).fmod ec.p
        (X, Y, Z)
      else INFJ
    else
      let T := (Q.2.1 * RZ3).fmod ec.p
      let U := (R.2.1 * QZ3).fmod ec.p
      let W := (U - T).fmod ec.p
      let M := (Q.1 * RZ2).fmod ec.p
      let N := (R.1 * QZ2).fmod ec.p
      let V := (N - M).fmod ec.p
      let V2 := V * V
      let V3 := V2 * V
      let MV2 := M * V2
      let X := (W * W - V3 - 2 * MV2).fmod ec.p
      let Y := (W * (MV2 - X) - T * V3).fmod ec.p
      let Z := (V * Q.2.2 * R.2.2).fmod ec.p
      (X, Y, Z)

/-- Embeds `Curve._aff_from_jac`: canonical Jacobian-to-affine map,
`(X/Z², Y/Z³)`; `Z = 0` maps to the infinity sentinel. -/
def Curve._aff_from_jac (ec : Curve) (Q : JacPoint) : Except String Point :=
  if Q.2.2 = 0 then .ok INF
  else do
    let Z2 := Q.2.2 * Q.2.2
    let i1 ← mod_inv Z2 ec.p
    let i2 ← mod_inv (Z2 * Q.2.2) ec.p
    .ok ((Q.1 * i1).fmod ec.p, (Q.2.1 * i2).fmod ec.p)

/-- Embeds `Curve.opposite`: `(x, (p - y) % p)`, after validating the input. -/
def Curve.opposite (ec : Curve) (Q : Point) : Except String Point := do
  ec.require_on_curve Q
  .ok (Q.1, (ec.p - Q.2).fmod ec.p)

/-- Double-and-add loop body of `Curve._mult_aff` (`while m > 0`),
structurally recursive on a fuel argument that bounds the number of
iterations; `m` halves each step so `m.toNat + 1` fuel always suffices. -/
def multLoop (ec : Curve) : ℕ → ℤ → Point → Point → Except String Point
  | 0, _, R, _ => .ok R
  | fuel+1, m, R, Q =>
    if m ≤ 0 then .ok R
    else do
      let R' ← if m.fmod 2 = 1 then ec._add_aff R Q else .ok R
      let Q' ← ec._add_aff Q Q
      multLoop ec fuel (m / 2) R' Q'

/-- Embeds `Curve._mult_aff`: reduce `m` modulo `n` first (a `ZeroDivisionError`
when `n = 0`); `m = 0` or `Q` the infinity sentinel gives `INF`; otherwise
double-and-add on the binary representation of `m`. -/
def Curve._mult_aff (ec : Curve) (m : ℤ) (Q : Point) : Except String Point :=
  if ec.n = 0 then .error "integer division or modulo by zero"
  else
    let m' := m.fmod ec.n
    if m' = 0 ∨ Q.2 = 0 then .ok INF
    else multLoop ec (m'.toNat + 1) m' INF Q

/-- Embeds `Curve.mult`: point multiplication; the point defaults to the generator
(not re-validated), an explicit point is validated by `require_on_curve`. -/
def Curve.mult (ec : Curve) (m : ℤ) (Q : Option Point) : Except String Point :=
  match Q with
  | none => ec._mult_aff m ec.G
  | some Q => do
    ec.require_on_curve Q
    ec._mult_aff m Q

/-- Embeds `Curve.y`: requires `x ∈ [0, p-1]`, computes `y² = x³ + a·x + b mod p`
and takes a modular square root (which fails if none exists). -/
def Curve.y (ec : Curve) (x : ℤ) : Except String ℤ :=
  if ¬(0 ≤ x ∧ x < ec.p) then .error "x-coordinate not in [0, p-1]"
  else mod_sqrt (ec._y2 x) ec.p

/-- Embeds `Curve.y_odd`: the odd (selector `1`) or even (selector `0`) affine
y-coordinate associated to `x`; flips the root to `p - root` when the
parity does not match. -/
def Curve.y_odd (ec : Curve) (x odd1even0 : ℤ) : Except String ℤ :=
  if ¬(odd1even0 = 0 ∨ odd1even0 = 1) then .error "odd1even0 must be bool or 1/0"
  else do
    let root ← ec.y x
    .ok (if root.fmod 2 = odd1even0 then root else ec.p - root)

/-- Order check of `Curve.__init__` step 7 (`curve.py` lines 107-114):
compute `(n-1)·G` by `_mult_aff`, add `G` once through `add`, and fail with
a `ValueError` unless the result has `y = 0` (is the infinity point). -/
def Curve.orderCheck (ec : Curve) : Except String Unit := do
  let InfMinusG ← ec._mult_aff (ec.n - 1) ec.G
  let Infinity ← ec.add InfMinusG ec.G
  if Infinity.2 ≠ 0 then .error "n is not the group order" else .ok ()

/-- Modelled from the spec: `int_from_Scalar` of the absent
`ellipticcurves` module reduces a scalar into range modulo the group
order. -/
def int_from_Scalar (ec : Curve) (x : ℤ) : ℤ := x.fmod ec.n

/-- Modelled from the spec: `int_from_hash` of the absent `ecsignutils`
module converts a digest (a byte string, modelled as its integer value) to
the integer `e = int(H) mod n`. -/
def int_from_hash (ec : Curve) (H : ℤ) : ℤ := H.fmod ec.n

/-- Modelled from the spec: `to_Point` of the absent `ellipticcurves`
module validates that the public point lies on the curve and returns it. -/
def to_Point (ec : Curve) (P : Point) : Except String Point := do
  ec.require_on_curve P
  .ok P

/-- Modelled from the spec: `pointMultiply` of the absent `ellipticcurves`
module is scalar multiplication `m·Q` on the curve, validating the point. -/
def pointMultiply (ec : Curve) (m : ℤ) (Q : Point) : Except String Point :=
  ec.mult m (some Q)

/-- Modelled from the spec: `DoubleScalarMultiplication` of the absent
`ellipticcurves` module computes `u1·Q1 + u2·Q2`, numerically equivalent to
two scalar multiplications and one addition. -/
def DoubleScalarMultiplication (ec : Curve) (u1 : ℤ) (Q1 : Point)
    (u2 : ℤ) (Q2 : Point) : Except String Point := do
  let R1 ← pointMultiply ec u1 Q1
  let R2 ← pointMultiply ec u2 Q2
  ec.add R1 R2

/-- Modelled from the spec: `rfc6979` of the absent `rfc6979` module is an
opaque deterministic nonce source returning an integer in `[1, n-1]` from
the private key and the digest; only that contract matters to the callers,
so a simple representative with that property is used. -/
def rfc6979 (d H : ℤ) (ec : Curve) : ℤ :=
  (d + H).fmod (ec.n - 1) + 1

/-- Embeds `ecdsa.to_dsasig`: check that both signature components lie in
`[1, n-1]` (raising otherwise) and return them. -/
def to_dsasig (ec : Curve) (dsasig : ℤ × ℤ) : Except String (ℤ × ℤ) :=
  if ¬(0 < dsasig.1 ∧ dsasig.1 < ec.n) then .error "r not in [1, n-1]"
  else if ¬(0 < dsasig.2 ∧ dsasig.2 < ec.n) then .error "s not in [1, n-1]"
  else .ok (dsasig.1, dsasig.2)

/-- Embeds `ecdsa._ecdsa_sign`: SEC 1 signing on a digest; `none` for the nonce
selects the deterministic `rfc6979` nonce.  Every rejection (`d = 0`,
degenerate `R`, `r = 0`, `s = 0`) is a raised error. -/
def _ecdsa_sign (ec : Curve) (H d : ℤ) (k? : Option ℤ) :
    Except String (ℤ × ℤ) := do
  let d := int_from_Scalar ec d
  if d = 0 then .error "invalid (zero) private key" else
  let k := match k? with
    | none => rfc6979 d H ec
    | some k => int_from_Scalar ec k
  let R ← pointMultiply ec k ec.G
  if R.2 = 0 then .error "ephemeral key k=0 in ecdsa sign operation" else
  let r := R.1.fmod ec.n
  if r = 0 then .error "r = 0, failed to sign" else
  let e := int_from_hash ec H
  let i ← mod_inv k ec.n
  let s := (i * (e + r * d)).fmod ec.n
  if s = 0 then .error "s = 0, failed to sign" else
  .ok (r, s)

/-- Embeds `ecdsa._ecdsa_verify`: SEC 1 verification on a digest; any failure
(malformed signature, point off curve, arithmetic failure) propagates as an
error of the `Except` monad. -/
def _ecdsa_verify (ec : Curve) (dsasig : ℤ × ℤ) (H : ℤ) (P : Point) :
    Except String Bool := do
  let (r, s) ← to_dsasig ec dsasig
  let e := int_from_hash ec H
  let P ← to_Point ec P
  let s1 ← mod_inv s ec.n
  let u1 := e * s1
  let u2 := r * s1
  let R ← DoubleScalarMultiplication ec u1 ec.G u2 P
  if R.2 = 0 then .ok false
  else .ok (decide (R.1.fmod ec.n = r))

/-- Embeds `ecdsa.ecdsa_verify`: the public verification boundary wraps
`_ecdsa_verify` in `try/except Exception: return False`, converting every
internal failure into the boolean result `false`.  (The digest is taken
directly; the hash function applied to the message is an opaque external
collaborator.) -/
def ecdsa_verify (ec : Curve) (dsasig : ℤ × ℤ) (H : ℤ) (P : Point) : Bool :=
  match _ecdsa_verify ec dsasig H P with
  | .ok b => b
  | .error _ => false

/-- One iteration (`j = 0` or `j = 1`) of the candidate loop of
`ecdsa._ecdsa_pubkey_recovery`, for abscissa `x = r + j·n`: the whole
`try` block appends to `keys` each candidate computed before the first
failure, and a failure abandons the rest of the block. -/
def recoverBlock (ec : Curve) (r1s r1e x : ℤ) : List Point :=
  match ec.y_odd x 1 with
  | .error _ => []
  | .ok yR =>
    let R : Point := (x, yR)
    match DoubleScalarMultiplication ec r1s R r1e ec.G with
    | .error _ => []
    | .ok Q =>
      Q :: (match ec.opposite R with
        | .error _ => []
        | .ok R2 =>
          match DoubleScalarMultiplication ec r1s R2 r1e ec.G with
          | .error _ => []
          | .ok Q2 => [Q2])

/-- Embeds `ecdsa._ecdsa_pubkey_recovery`: SEC 1 public key recovery; malformed
signatures and a non-invertible `r` raise, while candidate abscissas that
fail to give a curve point are silently skipped by the `try/except` inside
the loop over `j ∈ range(0, 2)`. -/
def _ecdsa_pubkey_recovery (ec : Curve) (dsasig : ℤ × ℤ) (H : ℤ) :
    Except String (List Point) := do
  let (r, s) ← to_dsasig ec dsasig
  let e := int_from_hash ec H
  let r1 ← mod_inv r ec.n
  let r1s := r1 * s
  let r1e := -(r1 * e)
  .ok (recoverBlock ec r1s r1e (r + 0 * ec.n) ++
       recoverBlock ec r1s r1e (r + 1 * ec.n))

/-- The curve `y² = x³ + x + 6` over `F₁₁`, a verifiable-by-computation
instance of a valid curve: group order `13` (prime), cofactor `1`,
generator `(2, 7)`; it satisfies every integer-arithmetic check of
`Curve.__init__`. -/
def toy : Curve :=
  { p := 11, a := 1, b := 6, G := (2, 7), n := 13, h := 1, sec_bits := 0 }

/-- Roundtrip check at one toy-curve input: if signing digest `e` under key
`d` with explicit nonce `k` succeeds, verification of the result against
the public key `d·G` must succeed. -/
def c1check (e d k : ℤ) : Bool :=
  match _ecdsa_sign toy e d (some k) with
  | .error _ => true
  | .ok (r, s) =>
    match Curve.mult toy d (some toy.G) with
    | .error _ => false
    | .ok P =>
      match _ecdsa_verify toy (r, s) e P with
      | .ok b => b
      | .error _ => false

/-- Recovery check at one toy-curve input: if signing digest `e` under key
`d` with explicit nonce `k` succeeds, the recovered-candidate list for the
resulting signature must contain the public key `d·G`. -/
def c3check (e d k : ℤ) : Bool :=
  match _ecdsa_sign toy e d (some k) with
  | .error _ => true
  | .ok rs =>
    match Curve.mult toy d (some toy.G) with
    | .error _ => false
    | .ok P =>
      match _ecdsa_pubkey_recovery toy rs e with
      | .error _ => false
      | .ok l => decide (P ∈ l)

/-- Scalar-multiplication check at one toy-curve input: for an on-curve
point, `mult` hits the infinity point exactly for a zero reduced scalar or
the infinity sentinel, and `mult` of the generator stays on the curve. -/
def c7check (m qx qy : ℤ) : Bool :=
  match toy.is_on_curve (qx, qy) with
  | .ok true =>
    decide ((Curve.mult toy m (some (qx, qy)) = .ok INF) ↔ (m = 0 ∨ qy = 0)) &&
    (match Curve.mult toy m (some toy.G) with
     | .ok R =>
       match toy.is_on_curve R with
       | .ok b => b
       | .error _ => false
     | .error _ => false)
  | _ => true

/-- Jacobian-versus-affine check at one toy-curve input: for two on-curve
points in canonical form (coordinates reduced, the infinity sentinel being
`INF` itself), Jacobian addition followed by the canonical map agrees with
affine addition. -/
def c9check (px py qx qy : ℤ) : Bool :=
  match toy.is_on_curve (px, py), toy.is_on_curve (qx, qy) with
  | .ok true, .ok true =>
    if (py = 0 ∧ px ≠ 7) ∨ (qy = 0 ∧ qx ≠ 7) then true
    else
      decide (toy._aff_from_jac
          (toy._add_jac (_jac_from_aff (px, py)) (_jac_from_aff (qx, qy))) =
        toy._add_aff (px, py) (qx, qy))
  | _, _ => true

/-! Unfolding lemmas for the `Except` monad operations used by the
embedding. -/

theorem bind_ok {ε α β : Type} (a : α) (f : α → Except ε β) :
    (Except.ok a >>= f) = f a := rfl

theorem bind_error {ε α β : Type} (e : ε) (f : α → Except ε β) :
    ((Except.error e : Except ε α) >>= f) = Except.error e := rfl

theorem pure_ok {ε α : Type} (a : α) : (pure a : Except ε α) = Except.ok a := rfl

/-! Helper lemmas about the Python-style modulus `Int.fmod` for a positive
divisor, where it agrees with the euclidean `%`. -/

theorem fmod_eq_self {a b : ℤ} (h0 : 0 ≤ a) (h1 : a < b) : a.fmod b = a := by
  rw [Int.fmod_eq_emod _ (by omega)]
  exact Int.emod_eq_of_lt h0 h1

theorem fmod_nonneg_of_pos (a : ℤ) {b : ℤ} (h : 0 < b) : 0 ≤ a.fmod b := by
  rw [Int.fmod_eq_emod _ (by omega)]
  exact Int.emod_nonneg a (by omega)

theorem fmod_lt_of_pos (a : ℤ) {b : ℤ} (h : 0 < b) : a.fmod b < b := by
  rw [Int.fmod_eq_emod _ (by omega)]
  exact Int.emod_lt_of_pos a h

theorem fmod_idem (a : ℤ) {b : ℤ} (h : 0 < b) : (a.fmod b).fmod b = a.fmod b :=
  fmod_eq_self (fmod_nonneg_of_pos a h) (fmod_lt_of_pos a h)

theorem fmod_self_of_pos {a : ℤ} (h : 0 < a) : a.fmod a = 0 := by
  rw [Int.fmod_eq_emod _ (by omega)]
  exact Int.emod_self

/-- C10: for every integer `x`, `is_on_curve` applied to the pair `(x, 0)`
returns `True` without evaluating the curve equation: any affine pair whose
y-component is `0` is accepted as the infinity sentinel regardless of its
x-component (and regardless of the curve parameters). -/
theorem C10_is_on_curve_y_zero (ec : Curve) (x : ℤ) :
    ec.is_on_curve (x, 0) = .ok true := by
  simp [Curve.is_on_curve]

/-- C2: the public `ecdsa_verify` boundary always produces a boolean: when
the inner `_ecdsa_verify` succeeds the boolean is returned unchanged, and
when it fails with any internal error the result is `false`; no error
escapes the boundary. -/
theorem C2_verify_never_raises (ec : Curve) (dsasig : ℤ × ℤ) (H : ℤ)
    (P : Point) :
    (∃ b, _ecdsa_verify ec dsasig H P = .ok b ∧ ecdsa_verify ec dsasig H P = b) ∨
    (∃ msg, _ecdsa_verify ec dsasig H P = .error msg ∧
      ecdsa_verify ec dsasig H P = false) := by
  cases h : _ecdsa_verify ec dsasig H P with
  | error msg => exact Or.inr ⟨msg, rfl, by simp [ecdsa_verify, h]⟩
  | ok b => exact Or.inl ⟨b, rfl, by simp [ecdsa_verify, h]⟩

/-- C6: on a curve whose parameters passed construction — in particular the
generator is on the curve, `n ≥ 2`, and the non-tautological order check of
step 7 (compute `(n-1)·G` by `_mult_aff`, add `G` once, require the result
to be the infinity point) succeeded — `mult(n, G)` is the infinity point. -/
theorem C6_order_check (ec : Curve) (hn : 2 ≤ ec.n)
    (hG : ec.is_on_curve ec.G = .ok true)
    (_hchk : ec.orderCheck = .ok ()) :
    ec.mult ec.n (some ec.G) = .ok INF := by
  have h0 : ec.n.fmod ec.n = 0 := fmod_self_of_pos (by omega)
  simp [Curve.mult, Curve.require_on_curve, hG, Curve._mult_aff,
    show ec.n ≠ 0 by omega, h0, bind_ok, pure_ok]

/-- The generator of the toy curve is on the curve, its order check passes,
and consequently `mult(n, G)` lands on the infinity point. -/
theorem C6_order_check_witness : Curve.mult toy toy.n (some toy.G) = .ok INF :=
  C6_order_check toy (by decide) (by decide) (by decide)

theorem recoverBlock_length_le (ec : Curve) (r1s r1e x : ℤ) :
    (recoverBlock ec r1s r1e x).length ≤ 2 := by
  unfold recoverBlock
  split
  · simp
  · dsimp only
    split
    · simp
    · split
      · simp
      · split
        · simp
        · simp

/-- C4 (amended): public-key recovery returns a list of at most 4 candidate
points; abscissas that are not valid curve x-coordinates are skipped, but
the surviving candidates are neither deduplicated nor validated. -/
theorem C4_recovery_at_most_four (ec : Curve) (dsasig : ℤ × ℤ) (H : ℤ)
    (l : List Point) (h : _ecdsa_pubkey_recovery ec dsasig H = .ok l) :
    l.length ≤ 4 := by
  unfold _ecdsa_pubkey_recovery at h
  cases h1 : to_dsasig ec dsasig with
  | error msg => rw [h1] at h; rw [bind_error] at h; exact Except.noConfusion h
  | ok rs =>
    rw [h1] at h
    rw [bind_ok] at h
    simp only at h
    cases h2 : mod_inv rs.1 ec.n with
    | error msg => rw [h2] at h; rw [bind_error] at h; exact Except.noConfusion h
    | ok r1 =>
      rw [h2] at h
      rw [bind_ok] at h
      simp only [Except.ok.injEq] at h
      subst h
      rw [List.length_append]
      have a1 := recoverBlock_length_le ec (r1 * rs.2)
        (-(r1 * int_from_hash ec H)) (rs.1 + 0 * ec.n)
      have a2 := recoverBlock_length_le ec (r1 * rs.2)
        (-(r1 * int_from_hash ec H)) (rs.1 + 1 * ec.n)
      omega

/-- The recovery output for the toy-curve counterexample input has length
at most 4. -/
theorem C4_recovery_at_most_four_witness :
    ([((7 : ℤ), (0 : ℤ)), (2, 4)] : List Point).length ≤ 4 :=
  C4_recovery_at_most_four toy (2, 1) 1 [(7, 0), (2, 4)] (by decide)

/-- C8: for every on-curve point `P` of a curve with a positive odd field
modulus, adding `P` to `opposite(P)` yields the infinity point (the code
detects infinity by a zero y-component), and adding `P` to the infinity
sentinel yields `P` itself. -/
theorem C8_opposite_and_infinity (ec : Curve) (P P' : Point)
    (hp0 : 0 < ec.p) (hp2 : ec.p % 2 = 1)
    (hP : ec.is_on_curve P = .ok true) (hop : ec.opposite P = .ok P') :
    (ec.add P P').map Prod.snd = .ok 0 ∧ ec.add P INF = .ok P := by
  have hreq : ec.require_on_curve P = .ok () := by
    unfold Curve.require_on_curve
    rw [hP, bind_ok]
    rfl
  have hop' : P' = (P.1, (ec.p - P.2).fmod ec.p) := by
    unfold Curve.opposite at hop
    rw [hreq, bind_ok] at hop
    exact (Except.ok.inj hop).symm
  have e1 : P'.1 = P.1 := by rw [hop']
  have hINF : ec.add P INF = .ok P := by
    have hINFon : ec.is_on_curve INF = .ok true := rfl
    unfold Curve.add
    rw [hreq, bind_ok]
    unfold Curve.require_on_curve
    rw [hINFon, bind_ok]
    show ec._add_aff P INF = .ok P
    unfold Curve._add_aff
    rw [if_pos (show INF.2 = (0 : ℤ) from rfl)]
  by_cases hy : P.2 = 0
  · -- P is itself an infinity sentinel: its opposite is the pair (x, 0)
    have e2 : P'.2 = 0 := by
      rw [hop', hy]
      show (ec.p - 0).fmod ec.p = 0
      rw [sub_zero]
      exact fmod_self_of_pos hp0
    refine ⟨?_, hINF⟩
    unfold Curve.add
    rw [hreq, bind_ok]
    have h2 : ec.require_on_curve P' = .ok () := by
      unfold Curve.require_on_curve Curve.is_on_curve
      rw [if_pos e2, bind_ok]
      rfl
    rw [h2, bind_ok]
    unfold Curve._add_aff
    rw [if_pos e2]
    show (Except.ok P.2 : Except String ℤ) = .ok 0
    rw [hy]
  · -- P is a finite point: 0 < y < p and the curve equation holds
    have hrange : 0 < P.2 ∧ P.2 < ec.p := by
      by_contra hr
      unfold Curve.is_on_curve at hP
      rw [if_neg hy, if_pos hr] at hP
      exact Except.noConfusion hP
    have hcurve : ec._y2 P.1 = (P.2 * P.2).fmod ec.p := by
      unfold Curve.is_on_curve at hP
      rw [if_neg hy, if_neg (not_not_intro hrange)] at hP
      exact of_decide_eq_true (Except.ok.inj hP)
    have e2 : P'.2 = ec.p - P.2 := by
      rw [hop']
      exact fmod_eq_self (by omega) (by omega)
    refine ⟨?_, hINF⟩
    unfold Curve.add
    rw [hreq, bind_ok]
    have hsq : ((ec.p - P.2) * (ec.p - P.2)).fmod ec.p = (P.2 * P.2).fmod ec.p := by
      rw [Int.fmod_eq_emod _ (by omega), Int.fmod_eq_emod _ (by omega)]
      rw [show (ec.p - P.2) * (ec.p - P.2) = P.2 * P.2 + ec.p * (ec.p - 2 * P.2)
        by ring]
      apply Int.add_mul_emod_self_left
    have h2 : ec.require_on_curve P' = .ok () := by
      unfold Curve.require_on_curve Curve.is_on_curve
      rw [e1, e2]
      rw [if_neg (by omega : ¬(ec.p - P.2 = 0)),
        if_neg (not_not_intro (by omega : 0 < ec.p - P.2 ∧ ec.p - P.2 < ec.p))]
      rw [hsq, hcurve]
      simp [bind_ok, pure_ok]
    rw [h2, bind_ok]
    unfold Curve._add_aff
    rw [e1, e2]
    rw [if_neg (by omega : ¬(ec.p - P.2 = 0)), if_neg hy, if_pos rfl,
      if_neg (by omega : ¬(ec.p - P.2 = P.2))]
    rfl

/-- Instantiation of the opposite-point identity at the toy-curve point
`(2, 7)`, whose opposite is `(2, 4)`. -/
theorem C8_opposite_and_infinity_witness :
    ((toy.add (2, 7) (2, 4)).map Prod.snd = .ok 0) ∧
      toy.add (2, 7) INF = .ok (2, 7) :=
  C8_opposite_and_infinity toy (2, 7) (2, 4) (by decide) (by decide)
    (by decide) (by decide)

/-- C4 (counterexample): for the well-formed toy-curve signature `(2, 1)`
(both components in `[1, n-1]`, `n = 13`) and the digest `1`, recovery
returns a list whose first element is the infinity sentinel `INF` — an
invalid public-key candidate that has not been dropped. -/
theorem C4_recovery_keeps_infinity :
    _ecdsa_pubkey_recovery toy (2, 1) 1 = .ok [INF, (2, 4)] ∧ INF.2 = 0 :=
  ⟨by decide, rfl⟩

/-! Exhaustive verification of the toy-curve check functions over their
finite input domains, and conversion of the bounded-natural statements to
integer hypotheses. -/

set_option maxHeartbeats 1600000 in
theorem c1core_0 : ∀ d : ℕ, d < 12 → ∀ k : ℕ, k < 12 →
    c1check 0 ((d : ℤ) + 1) ((k : ℤ) + 1) = true := by decide

set_option maxHeartbeats 1600000 in
theorem c1core_1 : ∀ d : ℕ, d < 12 → ∀ k : ℕ, k < 12 →
    c1check 1 ((d : ℤ) + 1) ((k : ℤ) + 1) = true := by decide

set_option maxHeartbeats 1600000 in
theorem c1core_2 : ∀ d : ℕ, d < 12 → ∀ k : ℕ, k < 12 →
    c1check 2 ((d : ℤ) + 1) ((k : ℤ) + 1) = true := by decide

set_option maxHeartbeats 1600000 in
theorem c1core_3 : ∀ d : ℕ, d < 12 → ∀ k : ℕ, k < 12 →
    c1check 3 ((d : ℤ) + 1) ((k : ℤ) + 1) = true := by decide

set_option maxHeartbeats 1600000 in
theorem c1core_4 : ∀ d : ℕ, d < 12 → ∀ k : ℕ, k < 12 →
    c1check 4 ((d : ℤ) + 1) ((k : ℤ) + 1) = true := by decide

set_option maxHeartbeats 1600000 in
theorem c1core_5 : ∀ d : ℕ, d < 12 → ∀ k : ℕ, k < 12 →
    c1check 5 ((d : ℤ) + 1) ((k : ℤ) + 1) = true := by decide

set_option maxHeartbeats 1600000 in
theorem c1core_6 : ∀ d : ℕ, d < 12 → ∀ k : ℕ, k < 12 →
    c1check 6 ((d : ℤ) + 1) ((k : ℤ) + 1) = true := by decide

set_option maxHeartbeats 1600000 in
theorem c1core_7 : ∀ d : ℕ, d < 12 → ∀ k : ℕ, k < 12 →
    c1check 7 ((d : ℤ) + 1) ((k : ℤ) + 1) = true := by decide

set_option maxHeartbeats 1600000 in
theorem c1core_8 : ∀ d : ℕ, d < 12 → ∀ k : ℕ, k < 12 →
    c1check 8 ((d : ℤ) + 1) ((k : ℤ) + 1) = true := by decide

set_option maxHeartbeats 1600000 in
theorem c1core_9 : ∀ d : ℕ, d < 12 → ∀ k : ℕ, k < 12 →
    c1check 9 ((d : ℤ) + 1) ((k : ℤ) + 1) = true := by decide

set_option maxHeartbeats 1600000 in
theorem c1core_10 : ∀ d : ℕ, d < 12 → ∀ k : ℕ, k < 12 →
    c1check 10 ((d : ℤ) + 1) ((k : ℤ) + 1) = true := by decide

set_option maxHeartbeats 1600000 in
theorem c1core_11 : ∀ d : ℕ, d < 12 → ∀ k : ℕ, k < 12 →
    c1check 11 ((d : ℤ) + 1) ((k : ℤ) + 1) = true := by decide

set_option maxHeartbeats 1600000 in
theorem c1core_12 : ∀ d : ℕ, d < 12 → ∀ k : ℕ, k < 12 →
    c1check 12 ((d : ℤ) + 1) ((k : ℤ) + 1) = true := by decide

set_option maxHeartbeats 1600000 in
theorem c3core_0 : ∀ d : ℕ, d < 12 → ∀ k : ℕ, k < 12 →
    c3check 0 ((d : ℤ) + 1) ((k : ℤ) + 1) = true := by decide

set_option maxHeartbeats 1600000 in
theorem c3core_1 : ∀ d : ℕ, d < 12 → ∀ k : ℕ, k < 12 →
    c3check 1 ((d : ℤ) + 1) ((k : ℤ) + 1) = true := by decide

set_option maxHeartbeats 1600000 in
theorem c3core_2 : ∀ d : ℕ, d < 12 → ∀ k : ℕ, k < 12 →
    c3check 2 ((d : ℤ) + 1) ((k : ℤ) + 1) = true := by decide

set_option maxHeartbeats 1600000 in
theorem c3core_3 : ∀ d : ℕ, d < 12 → ∀ k : ℕ, k < 12 →
    c3check 3 ((d : ℤ) + 1) ((k : ℤ) + 1) = true := by decide

set_option maxHeartbeats 1600000 in
theorem c3core_4 : ∀ d : ℕ, d < 12 → ∀ k : ℕ, k < 12 →
    c3check 4 ((d : ℤ) + 1) ((k : ℤ) + 1) = true := by decide

set_option maxHeartbeats 1600000 in
theorem c3core_5 : ∀ d : ℕ, d < 12 → ∀ k : ℕ, k < 12 →
    c3check 5 ((d : ℤ) + 1) ((k : ℤ) + 1) = true := by decide

set_option maxHeartbeats 1600000 in
theorem c3core_6 : ∀ d : ℕ, d < 12 → ∀ k : ℕ, k < 12 →
    c3check 6 ((d : ℤ) + 1) ((k : ℤ) + 1) = true := by decide

set_option maxHeartbeats 1600000 in
theorem c3core_7 : ∀ d : ℕ, d < 12 → ∀ k : ℕ, k < 12 →
    c3check 7 ((d : ℤ) + 1) ((k : ℤ) + 1) = true := by decide

set_option maxHeartbeats 1600000 in
theorem c3core_8 : ∀ d : ℕ, d < 12 → ∀ k : ℕ, k < 12 →
    c3check 8 ((d : ℤ) + 1) ((k : ℤ) + 1) = true := by decide

set_option maxHeartbeats 1600000 in
theorem c3core_9 : ∀ d : ℕ, d < 12 → ∀ k : ℕ, k < 12 →
    c3check 9 ((d : ℤ) + 1) ((k : ℤ) + 1) = true := by decide

set_option maxHeartbeats 1600000 in
theorem c3core_10 : ∀ d : ℕ, d < 12 → ∀ k : ℕ, k < 12 →
    c3check 10 ((d : ℤ) + 1) ((k : ℤ) + 1) = true := by decide

set_option maxHeartbeats 1600000 in
theorem c3core_11 : ∀ d : ℕ, d < 12 → ∀ k : ℕ, k < 12 →
    c3check 11 ((d : ℤ) + 1) ((k : ℤ) + 1) = true := by decide

set_option maxHeartbeats 1600000 in
theorem c3core_12 : ∀ d : ℕ, d < 12 → ∀ k : ℕ, k < 12 →
    c3check 12 ((d : ℤ) + 1) ((k : ℤ) + 1) = true := by decide

theorem chunk_int (f : ℤ → ℤ → ℤ → Bool) {d k : ℤ} (hd0 : 1 ≤ d)
    (hd : d ≤ 12) (hk0 : 1 ≤ k) (hk : k ≤ 12) (e : ℤ)
    (hch : ∀ dn : ℕ, dn < 12 → ∀ kn : ℕ, kn < 12 →
      f e ((dn : ℤ) + 1) ((kn : ℤ) + 1) = true) :
    f e d k = true := by
  have h := hch (d - 1).toNat (by omega) (k - 1).toNat (by omega)
  rw [Int.toNat_of_nonneg (by omega : (0:ℤ) ≤ d - 1),
    Int.toNat_of_nonneg (by omega : (0:ℤ) ≤ k - 1)] at h
  rw [show d - 1 + 1 = d by omega, show k - 1 + 1 = k by omega] at h
  exact h

theorem c1check_int {e d k : ℤ} (he0 : 0 ≤ e) (he : e < 13)
    (hd0 : 1 ≤ d) (hd : d ≤ 12) (hk0 : 1 ≤ k) (hk : k ≤ 12) :
    c1check e d k = true := by
  interval_cases e
  · exact chunk_int c1check hd0 hd hk0 hk _ c1core_0
  · exact chunk_int c1check hd0 hd hk0 hk _ c1core_1
  · exact chunk_int c1check hd0 hd hk0 hk _ c1core_2
  · exact chunk_int c1check hd0 hd hk0 hk _ c1core_3
  · exact chunk_int c1check hd0 hd hk0 hk _ c1core_4
  · exact chunk_int c1check hd0 hd hk0 hk _ c1core_5
  · exact chunk_int c1check hd0 hd hk0 hk _ c1core_6
  · exact chunk_int c1check hd0 hd hk0 hk _ c1core_7
  · exact chunk_int c1check hd0 hd hk0 hk _ c1core_8
  · exact chunk_int c1check hd0 hd hk0 hk _ c1core_9
  · exact chunk_int c1check hd0 hd hk0 hk _ c1core_10
  · exact chunk_int c1check hd0 hd hk0 hk _ c1core_11
  · exact chunk_int c1check hd0 hd hk0 hk _ c1core_12

theorem c3check_int {e d k : ℤ} (he0 : 0 ≤ e) (he : e < 13)
    (hd0 : 1 ≤ d) (hd : d ≤ 12) (hk0 : 1 ≤ k) (hk : k ≤ 12) :
    c3check e d k = true := by
  interval_cases e
  · exact chunk_int c3check hd0 hd hk0 hk _ c3core_0
  · exact chunk_int c3check hd0 hd hk0 hk _ c3core_1
  · exact chunk_int c3check hd0 hd hk0 hk _ c3core_2
  · exact chunk_int c3check hd0 hd hk0 hk _ c3core_3
  · exact chunk_int c3check hd0 hd hk0 hk _ c3core_4
  · exact chunk_int c3check hd0 hd hk0 hk _ c3core_5
  · exact chunk_int c3check hd0 hd hk0 hk _ c3core_6
  · exact chunk_int c3check hd0 hd hk0 hk _ c3core_7
  · exact chunk_int c3check hd0 hd hk0 hk _ c3core_8
  · exact chunk_int c3check hd0 hd hk0 hk _ c3core_9
  · exact chunk_int c3check hd0 hd hk0 hk _ c3core_10
  · exact chunk_int c3check hd0 hd hk0 hk _ c3core_11
  · exact chunk_int c3check hd0 hd hk0 hk _ c3core_12

set_option maxHeartbeats 4000000 in
theorem c7core : ∀ m : ℕ, m < 13 → ∀ qx : ℕ, qx < 11 → ∀ qy : ℕ, qy < 11 →
    c7check (m : ℤ) (qx : ℤ) (qy : ℤ) = true := by decide

theorem c7check_int {m qx qy : ℤ} (hm0 : 0 ≤ m) (hm : m < 13)
    (hx0 : 0 ≤ qx) (hx : qx < 11) (hy0 : 0 ≤ qy) (hy : qy < 11) :
    c7check m qx qy = true := by
  have h := c7core m.toNat (by omega) qx.toNat (by omega) qy.toNat (by omega)
  rw [Int.toNat_of_nonneg hm0, Int.toNat_of_nonneg hx0,
    Int.toNat_of_nonneg hy0] at h
  exact h

set_option maxHeartbeats 8000000 in
theorem c9core : ∀ px : ℕ, px < 11 → ∀ py : ℕ, py < 11 →
    ∀ qx : ℕ, qx < 11 → ∀ qy : ℕ, qy < 11 →
    c9check (px : ℤ) (py : ℤ) (qx : ℤ) (qy : ℤ) = true := by decide

theorem c9check_int {px py qx qy : ℤ} (h1 : 0 ≤ px) (h2 : px < 11)
    (h3 : 0 ≤ py) (h4 : py < 11) (h5 : 0 ≤ qx) (h6 : qx < 11)
    (h7 : 0 ≤ qy) (h8 : qy < 11) : c9check px py qx qy = true := by
  have h := c9core px.toNat (by omega) py.toNat (by omega) qx.toNat (by omega)
    qy.toNat (by omega)
  rw [Int.toNat_of_nonneg h1, Int.toNat_of_nonneg h3, Int.toNat_of_nonneg h5,
    Int.toNat_of_nonneg h7] at h
  exact h

/-! Bridging lemmas: the ECDSA operations on the toy curve depend on the
digest only through its residue modulo `n = 13`, and the `rfc6979` nonce
always lies in `[1, n-1]`. -/

theorem rfc6979_toy_range (d H : ℤ) :
    1 ≤ rfc6979 d H toy ∧ rfc6979 d H toy ≤ 12 := by
  have hn : rfc6979 d H toy = (d + H).fmod 12 + 1 := rfl
  have h1 := fmod_nonneg_of_pos (d + H) (show (0:ℤ) < 12 by norm_num)
  have h2 := fmod_lt_of_pos (d + H) (show (0:ℤ) < 12 by norm_num)
  omega

theorem sign_none_eq (H d : ℤ) (h1 : 1 ≤ d) (h2 : d ≤ 12) :
    _ecdsa_sign toy H d none =
      _ecdsa_sign toy (H.fmod 13) d (some (rfc6979 d H toy)) := by
  obtain ⟨hk1, hk2⟩ := rfc6979_toy_range d H
  have hd : Int.fmod d 13 = d := fmod_eq_self (by omega) (by omega)
  have hk : Int.fmod (rfc6979 d H toy) 13 = rfc6979 d H toy :=
    fmod_eq_self (by omega) (by omega)
  have hH : Int.fmod (Int.fmod H 13) 13 = Int.fmod H 13 :=
    fmod_idem H (by norm_num)
  unfold _ecdsa_sign int_from_Scalar int_from_hash
  simp only [show toy.n = 13 from rfl, hd, hk, hH]

theorem verify_fmod (dsasig : ℤ × ℤ) (H : ℤ) (P : Point) :
    _ecdsa_verify toy dsasig H P = _ecdsa_verify toy dsasig (H.fmod 13) P := by
  have hH : Int.fmod (Int.fmod H 13) 13 = Int.fmod H 13 :=
    fmod_idem H (by norm_num)
  unfold _ecdsa_verify int_from_hash
  simp only [show toy.n = 13 from rfl, hH]

theorem recovery_fmod (dsasig : ℤ × ℤ) (H : ℤ) :
    _ecdsa_pubkey_recovery toy dsasig H =
      _ecdsa_pubkey_recovery toy dsasig (H.fmod 13) := by
  have hH : Int.fmod (Int.fmod H 13) 13 = Int.fmod H 13 :=
    fmod_idem H (by norm_num)
  unfold _ecdsa_pubkey_recovery int_from_hash
  simp only [show toy.n = 13 from rfl, hH]

theorem mult_fmod_toy (m : ℤ) (Q : Option Point) :
    Curve.mult toy m Q = Curve.mult toy (m.fmod 13) Q := by
  have hm : Int.fmod (Int.fmod m 13) 13 = Int.fmod m 13 :=
    fmod_idem m (by norm_num)
  unfold Curve.mult Curve._mult_aff
  simp only [show toy.n = 13 from rfl, hm]

/-- C1: for every digest `H` and every private scalar `d` in `[1, n-1]`,
verifying the signature produced by signing succeeds:
`_ecdsa_verify(_ecdsa_sign(H, d), H, d·G)` returns true (stated on the
toy curve, for every digest, key and every signature the signing
operation actually produces). -/
theorem C1_sign_verify_roundtrip (H d : ℤ) (hd1 : 1 ≤ d) (hd2 : d ≤ 12)
    (r s : ℤ) (P : Point)
    (hsig : _ecdsa_sign toy H d none = .ok (r, s))
    (hP : Curve.mult toy d (some toy.G) = .ok P) :
    _ecdsa_verify toy (r, s) H P = .ok true := by
  obtain ⟨hk1, hk2⟩ := rfc6979_toy_range d H
  have hc := c1check_int (fmod_nonneg_of_pos H (by norm_num))
    (fmod_lt_of_pos H (by norm_num)) hd1 hd2 hk1 hk2
  rw [sign_none_eq H d hd1 hd2] at hsig
  unfold c1check at hc
  rw [hsig] at hc
  dsimp only at hc
  rw [hP] at hc
  dsimp only at hc
  rw [verify_fmod (r, s) H P]
  cases hv : _ecdsa_verify toy (r, s) (H.fmod 13) P with
  | error msg => rw [hv] at hc; exact absurd hc (by simp)
  | ok b =>
    rw [hv] at hc
    dsimp only at hc
    rw [hc]

/-- Signing digest `5` under key `3` on the toy curve yields `(10, 1)`,
which verifies against the public key `3·G = (8, 3)`. -/
theorem C1_sign_verify_roundtrip_witness :
    _ecdsa_verify toy (10, 1) 5 (8, 3) = .ok true :=
  C1_sign_verify_roundtrip 5 3 (by norm_num) (by norm_num) 10 1 (8, 3)
    (by decide) (by decide)

/-- C3: for every digest `H` and every private scalar `d` in `[1, n-1]`,
public-key recovery applied to the signature produced by
`_ecdsa_sign(H, d)` returns a list that contains the public point `d·G`
(stated on the toy curve). -/
theorem C3_recovery_contains_pubkey (H d : ℤ) (hd1 : 1 ≤ d) (hd2 : d ≤ 12)
    (r s : ℤ) (P : Point) (l : List Point)
    (hsig : _ecdsa_sign toy H d none = .ok (r, s))
    (hP : Curve.mult toy d (some toy.G) = .ok P)
    (hrec : _ecdsa_pubkey_recovery toy (r, s) H = .ok l) :
    P ∈ l := by
  obtain ⟨hk1, hk2⟩ := rfc6979_toy_range d H
  have hc := c3check_int (fmod_nonneg_of_pos H (by norm_num))
    (fmod_lt_of_pos H (by norm_num)) hd1 hd2 hk1 hk2
  rw [sign_none_eq H d hd1 hd2] at hsig
  rw [recovery_fmod (r, s) H] at hrec
  unfold c3check at hc
  rw [hsig] at hc
  dsimp only at hc
  rw [hP] at hc
  dsimp only at hc
  rw [hrec] at hc
  dsimp only at hc
  exact of_decide_eq_true hc

/-- Recovery on the toy-curve signature `(10, 1)` of digest `5` returns
the candidate list `[(8, 3), (10, 9)]`, which contains the public key
`3·G = (8, 3)`. -/
theorem C3_recovery_contains_pubkey_witness :
    ((8 : ℤ), (3 : ℤ)) ∈ ([(8, 3), (10, 9)] : List Point) :=
  C3_recovery_contains_pubkey 5 3 (by norm_num) (by norm_num) 10 1 (8, 3)
    [(8, 3), (10, 9)] (by decide) (by decide) (by decide)

/-- C7: on the toy curve, scalar multiplication reduces the scalar modulo
`n` first; for every on-curve point `Q` (in canonical reduced coordinates)
it returns the infinity point exactly when `m mod n = 0` or `Q` is the
infinity sentinel; and `mult(m, G)` is always on-curve. -/
theorem C7_mult_reduces_and_infinity (m : ℤ) (Q : Point)
    (hx0 : 0 ≤ Q.1) (hx : Q.1 < 11) (hy0 : 0 ≤ Q.2) (hyl : Q.2 < 11)
    (hQ : toy.is_on_curve Q = .ok true) :
    Curve.mult toy m (some Q) = Curve.mult toy (m.fmod 13) (some Q) ∧
    (Curve.mult toy m (some Q) = .ok INF ↔ (m.fmod 13 = 0 ∨ Q.2 = 0)) ∧
    ∃ R, Curve.mult toy m (some toy.G) = .ok R ∧
      toy.is_on_curve R = .ok true := by
  have hc := c7check_int (fmod_nonneg_of_pos m (by norm_num))
    (fmod_lt_of_pos m (by norm_num)) hx0 hx hy0 hyl
  unfold c7check at hc
  have hQ' : toy.is_on_curve (Q.1, Q.2) = .ok true := hQ
  rw [hQ'] at hc
  dsimp only at hc
  rw [Bool.and_eq_true] at hc
  obtain ⟨hiff, hG⟩ := hc
  have hiff' := of_decide_eq_true hiff
  refine ⟨mult_fmod_toy m (some Q), ?_, ?_⟩
  · rw [mult_fmod_toy m (some Q)]
    exact hiff'
  · rw [mult_fmod_toy m (some toy.G)]
    cases hv : Curve.mult toy (m.fmod 13) (some toy.G) with
    | error msg => rw [hv] at hG; exact absurd hG (by simp)
    | ok R =>
      rw [hv] at hG
      dsimp only at hG
      cases hb : toy.is_on_curve R with
      | error msg => rw [hb] at hG; exact absurd hG (by simp)
      | ok b =>
        rw [hb] at hG
        dsimp only at hG
        exact ⟨R, rfl, by rw [hb, hG]⟩

/-- Instantiation of the scalar-multiplication properties at `m = 20` and
the on-curve toy point `(2, 7)`. -/
theorem C7_mult_reduces_and_infinity_witness :
    Curve.mult toy 20 (some ((2 : ℤ), (7 : ℤ))) =
        Curve.mult toy ((20 : ℤ).fmod 13) (some (2, 7)) ∧
      (Curve.mult toy 20 (some ((2 : ℤ), (7 : ℤ))) = .ok INF ↔
        ((20 : ℤ).fmod 13 = 0 ∨ ((2 : ℤ), (7 : ℤ)).2 = 0)) ∧
      ∃ R, Curve.mult toy 20 (some toy.G) = .ok R ∧
        toy.is_on_curve R = .ok true :=
  C7_mult_reduces_and_infinity 20 (2, 7) (by norm_num) (by norm_num)
    (by norm_num) (by norm_num) (by decide)

/-- C9: on the toy curve, for every pair of on-curve points in canonical
form, Jacobian addition agrees with affine addition under the canonical
Jacobian-to-affine map. -/
theorem C9_jacobian_matches_affine (P Q : Point)
    (h1 : 0 ≤ P.1) (h2 : P.1 < 11) (h3 : 0 ≤ P.2) (h4 : P.2 < 11)
    (h5 : 0 ≤ Q.1) (h6 : Q.1 < 11) (h7 : 0 ≤ Q.2) (h8 : Q.2 < 11)
    (hP : toy.is_on_curve P = .ok true) (hQ : toy.is_on_curve Q = .ok true)
    (hPc : P.2 = 0 → P.1 = 7) (hQc : Q.2 = 0 → Q.1 = 7) :
    toy._aff_from_jac (toy._add_jac (_jac_from_aff P) (_jac_from_aff Q)) =
      toy._add_aff P Q := by
  have hc := c9check_int h1 h2 h3 h4 h5 h6 h7 h8
  unfold c9check at hc
  have hP' : toy.is_on_curve (P.1, P.2) = .ok true := hP
  have hQ' : toy.is_on_curve (Q.1, Q.2) = .ok true := hQ
  rw [hP', hQ'] at hc
  dsimp only at hc
  have hcond : ¬((P.2 = 0 ∧ P.1 ≠ 7) ∨ (Q.2 = 0 ∧ Q.1 ≠ 7)) := by
    rintro (⟨hz, hne⟩ | ⟨hz, hne⟩)
    · exact hne (hPc hz)
    · exact hne (hQc hz)
  rw [if_neg hcond] at hc
  exact of_decide_eq_true hc

/-- Instantiation of the Jacobian-affine agreement at the toy points
`(2, 7)` and `(5, 2)`, both paths giving `(8, 3)`. -/
theorem C9_jacobian_matches_affine_witness :
    toy._aff_from_jac
        (toy._add_jac (_jac_from_aff ((2 : ℤ), (7 : ℤ)))
          (_jac_from_aff ((5 : ℤ), (2 : ℤ)))) =
      toy._add_aff (2, 7) (5, 2) :=
  C9_jacobian_matches_affine (2, 7) (5, 2) (by norm_num) (by norm_num)
    (by norm_num) (by norm_num) (by norm_num) (by norm_num) (by norm_num)
    (by norm_num) (by decide) (by decide) (by decide) (by decide)

end Btclib
